import Mathlib

/-!
Shallow embedding of the connection-lifecycle and broadcast core of the
Open-MQTT-Broadcaster repository, together with proofs about the claims of
its specification.

The repository contains several variants of the MQTT handler; each is
embedded in its own namespace:

* `OMB.Modules` — `src/modules/mqtt_connection.py` (`MQTTHandler` with the
  connect-timeout watchdog), modelled as a sequential event machine: each
  Python callback (`_on_connect`, `_timeout_callback`, `_on_disconnect`,
  `disconnect`) is one atomic event.
* `OMB.Typed` — `src/mqtt_handler.py` (the `MQTTConfig`-based handler),
  modelled as state-passing functions returning `State × Except PyExc α`;
  a Python `raise` is an `Except.error` and the first component is the
  object state at the moment control leaves the method.
* `OMB.Utils` — `src/utils/mqtt_handler.py` (`_cleanup_connection` based
  disconnect).
* `OMB.Gui` — `src/gui/main_window.py` (`MQTTBroadcaster`): the broadcast
  worker/queue/poll machinery, the channel statistics dictionary and its
  JSON persistence (`json.dump` / `json.load` are modelled by an explicit
  renderer and parser for the exact shape the code serialises, matching
  CPython's `json` module with its default `ensure_ascii=True` escaping).

Calls into the external paho client are recorded in an explicit call log
(`ClientCall`); outcomes of external calls (the dial, a publish) enter the
model as explicit parameters, since they depend on the network.
-/

namespace OMB

/-- Calls made on the underlying paho-mqtt client object (the external
collaborator).  The model appends one entry per performed client call. -/
inductive ClientCall where
  | newClient (version : Nat)
  | usernamePwSet (username password : String)
  | tlsSetContext
  | reconnectDelaySet (minDelay maxDelay : Int)
  | wsSetOptions
  | connectCall (host : String) (port : Int) (keepalive : Nat)
  | publishCall (topic payload : String) (qos : Nat) (retain : Bool)
  | subscribeCall (topic : String) (qos : Nat)
  | unsubscribeCall (topic : String)
  | loopStart
  | loopStop
  | disconnectCall
deriving DecidableEq, Repr

/-- Python exceptions raised by the embedded methods.  `runtimeErr` is
`RuntimeError` (the spec's `NotConnectedError`), `valueErr` is
`ValueError`, `attributeErr` is `AttributeError` (attribute access on
`None`), and `externalErr` is an exception re-raised from the underlying
client library. -/
inductive PyExc where
  | runtimeErr (msg : String)
  | valueErr (msg : String)
  | attributeErr (msg : String)
  | externalErr (msg : String)
deriving DecidableEq, Repr

namespace Modules

/-- State of `modules.mqtt_connection.MQTTHandler` during one connect
attempt.  `client` is `self.client is not None`; `timerField` is
`self._check_connection_timer is not None`; `timerLive` records whether the
single-shot `threading.Timer` may still fire (armed, not cancelled, not yet
fired); `cbCalls` logs every `connection_callback(success, error)`
invocation and `disconnCalls` every `disconnection_callback(rc)`
invocation. -/
structure ConnState where
  client : Bool
  is_connected : Bool
  timerField : Bool
  timerLive : Bool
  timeoutOccurred : Bool
  cbCalls : List (Bool × Option String)
  disconnCalls : List Int
deriving DecidableEq, Repr

/-- Events delivered to the handler after `connect` has returned: the
paho `on_connect` callback, the watchdog timer firing, the paho
`on_disconnect` callback, and a user call of `disconnect()`.  Each runs
atomically (the sequential event model of the callbacks). -/
inductive Event where
  | onConnect (rc : Nat)
  | timerFire
  | onDisconnect (rc : Int)
  | userDisconnect
deriving DecidableEq, Repr

/-- Translation of `MQTTHandler.disconnect` (lines 52–62): if a client
exists, stop the loop and disconnect (exceptions logged and swallowed),
then in the `finally` block clear `is_connected` and release the client
handle. -/
def disconnectStep (s : ConnState) : ConnState :=
  if s.client then { s with is_connected := false, client := false } else s

/-- Translation of `MQTTHandler._on_connect` (lines 70–84): cancel the
watchdog timer if armed, return early when the timeout already fired,
otherwise report success (`rc == 0`, setting `is_connected`) or failure
through the connection callback. -/
def onConnectStep (s : ConnState) (rc : Nat) : ConnState :=
  let s := if s.timerField then { s with timerField := false, timerLive := false } else s
  if s.timeoutOccurred then s
  else if rc = 0 then
    { s with is_connected := true, cbCalls := s.cbCalls ++ [(true, none)] }
  else
    { s with cbCalls := s.cbCalls ++ [(false, some ("Connection failed with code " ++ toString rc))] }

/-- Translation of `MQTTHandler._timeout_callback` (lines 100–108): a
single-shot timer event; if the timeout flag is already set or the
connection is established, do nothing, otherwise set the flag, report the
timeout through the connection callback and force `disconnect()`.  The
event is a no-op unless the timer is still live (a cancelled or already
fired `threading.Timer` does not run). -/
def timerFireStep (s : ConnState) : ConnState :=
  if s.timerLive then
    let s := { s with timerLive := false }
    if s.timeoutOccurred then s
    else if s.is_connected then s
    else
      disconnectStep { s with timeoutOccurred := true,
                              cbCalls := s.cbCalls ++ [(false, some "Connection timeout reached")] }
  else s

/-- Translation of `MQTTHandler._on_disconnect` (lines 91–98): clear
`is_connected`, invoke the disconnection callback, then cancel the watchdog
timer if still armed. -/
def onDisconnectStep (s : ConnState) (rc : Int) : ConnState :=
  let s := { s with is_connected := false, disconnCalls := s.disconnCalls ++ [rc] }
  if s.timerField then { s with timerField := false, timerLive := false } else s

/-- One atomic event of the sequential event model. -/
def step (s : ConnState) : Event → ConnState
  | .onConnect rc => onConnectStep s rc
  | .timerFire => timerFireStep s
  | .onDisconnect rc => onDisconnectStep s rc
  | .userDisconnect => disconnectStep s

/-- Run a list of events in order. -/
def runEvents (s : ConnState) : List Event → ConnState
  | [] => s
  | e :: es => runEvents (step s e) es

/-- State right after a successful return of `MQTTHandler.connect`
(lines 20–42): a fresh client exists, not yet connected, the timeout flag
cleared, and the 10-second watchdog armed. -/
def initAttempt : ConnState :=
  { client := true, is_connected := false, timerField := true, timerLive := true,
    timeoutOccurred := false, cbCalls := [], disconnCalls := [] }

/-- Number of `on_connect` events in a list; one connect attempt delivers
at most one. -/
def onConnectCount (evs : List Event) : Nat :=
  evs.countP fun e => match e with
    | .onConnect _ => true
    | _ => false

/-- Contribution of one event to the `on_connect` count. -/
def eCount : Event → Nat
  | .onConnect _ => 1
  | _ => 0

/-- Whether the armed watchdog could still add a connection-callback
invocation: it is live, the timeout flag is clear, and the session is not
connected. -/
def timerBit (s : ConnState) : Nat :=
  if s.timerLive = true ∧ s.timeoutOccurred = false ∧ s.is_connected = false then 1 else 0

/-- Upper bound on the connection-callback invocations still to come, when
at most `n` `on_connect` events remain: none once the timeout flag is set
(the early return in `_on_connect` suppresses them), and at most one
otherwise. -/
def cbBound (n : Nat) (s : ConnState) : Nat :=
  if s.timeoutOccurred = true then 0 else min 1 (n + timerBit s)

/-- Reachability invariant of the event machine: a connected session has
no live watchdog (success cancels it), and a cleared timer field means the
timer was cancelled. -/
def Inv (s : ConnState) : Prop :=
  (s.is_connected = true → s.timerLive = false) ∧ (s.timerField = false → s.timerLive = false)

end Modules

namespace Typed

/-- Translation of the `MQTTConfig` dataclass of `src/mqtt_handler.py`
(certificate/key paths are opaque strings; `mqtt_version` is the paho
protocol constant, `5` for MQTTv5). -/
structure MQTTConfig where
  host : String
  port : Int
  protocol : String
  topic : String
  qos : Nat := 0
  retain : Bool := false
  use_ssl : Bool := false
  ca_certs : Option String := none
  certfile : Option String := none
  keyfile : Option String := none
  username : Option String := none
  password : Option String := none
  auto_reconnect : Bool := true
  reconnect_delay : Int := 5
  mqtt_version : Nat := 5
deriving DecidableEq, Repr

/-- State of `mqtt_handler.MQTTHandler`: the optional client handle, the
optional configuration, the connected flag, the subscription registry
(`wildcard_subscriptions`, an insertion-ordered topic→QoS dict), the log
of `connection_callback(success, error)` invocations, and the log of calls
made on the underlying client. -/
structure HandlerState where
  client : Bool
  config : Option MQTTConfig
  is_connected : Bool
  wildcard_subscriptions : List (String × Nat)
  cbCalls : List (Bool × String)
  clientCalls : List ClientCall
deriving DecidableEq, Repr

/-- State of a freshly constructed handler (`__init__`). -/
def initState : HandlerState :=
  { client := false, config := none, is_connected := false,
    wildcard_subscriptions := [], cbCalls := [], clientCalls := [] }

/-- Python truthiness of an optional string (`None` and `""` are falsy). -/
def strTruthy : Option String → Bool
  | none => false
  | some s => s ≠ ""

/-- Translation of `MQTTHandler.configure` (lines 41–68): store the config,
create a fresh client, set credentials when both username and password are
truthy, set up TLS when `use_ssl` (the external `ssl.create_default_context`
is modelled as succeeding), and configure the reconnect delay.  Setting the
three event handlers mutates no observable state. -/
def configure (s : HandlerState) (config : MQTTConfig) : HandlerState :=
  let calls := [ClientCall.newClient config.mqtt_version]
  let calls := calls ++
    (if strTruthy config.username && strTruthy config.password then
      [ClientCall.usernamePwSet (config.username.getD "") (config.password.getD "")]
    else [])
  let calls := calls ++ (if config.use_ssl then [ClientCall.tlsSetContext] else [])
  let calls := calls ++
    (if config.auto_reconnect then [ClientCall.reconnectDelaySet 1 config.reconnect_delay] else [])
  { s with config := some config, client := true, clientCalls := s.clientCalls ++ calls }

/-- Body of `MQTTHandler.connect` after a configuration is known
(lines 77–92): optional websocket options, then the dial
`client.connect(host, port, keepalive=60)` followed by `loop_start`.
The outcome of the external dial is the parameter `dialFail` (`none` for
success, `some msg` when `client.connect` raises with message `msg`); a
failed dial invokes the connection callback with the error and re-raises. -/
def connectDial (s : HandlerState) (dialFail : Option String) : HandlerState × Except PyExc Unit :=
  match s.config with
  | none => (s, .error (.attributeErr "NoneType object has no attribute protocol"))
  | some c =>
    let s := if c.protocol = "ws" then { s with clientCalls := s.clientCalls ++ [.wsSetOptions] } else s
    match dialFail with
    | none =>
      ({ s with clientCalls := s.clientCalls ++ [.connectCall c.host c.port 60, .loopStart] }, .ok ())
    | some msg =>
      ({ s with clientCalls := s.clientCalls ++ [.connectCall c.host c.port 60],
                cbCalls := s.cbCalls ++ [(false, msg)] }, .error (.externalErr msg))

/-- Translation of `MQTTHandler.connect` (lines 70–92): with a config
argument, configure first; with none, fail fast (`ValueError`) when no
configuration was ever provided; then dial. -/
def connect (s : HandlerState) (config : Option MQTTConfig) (dialFail : Option String) :
    HandlerState × Except PyExc Unit :=
  match config with
  | some c => connectDial (configure s c) dialFail
  | none =>
    match s.config with
    | none => (s, .error (.valueErr "No configuration provided"))
    | some _ => connectDial s dialFail

/-- Translation of `MQTTHandler.disconnect` (lines 94–103): calls
`client.disconnect()` and `client.loop_stop()`, clears the connected flag
and the subscription registry; any exception is logged and re-raised.  In
particular, with no client handle the first attribute access raises
`AttributeError`, which propagates to the caller. -/
def disconnect (s : HandlerState) : HandlerState × Except PyExc Unit :=
  if s.client then
    ({ s with clientCalls := s.clientCalls ++ [.disconnectCall, .loopStop],
              is_connected := false, wildcard_subscriptions := [] }, .ok ())
  else
    (s, .error (.attributeErr "NoneType object has no attribute disconnect"))

/-- Translation of `MQTTHandler.publish` (lines 105–122): raise
`RuntimeError("Not connected to broker")` when not connected, otherwise
forward to `client.publish` with the per-call or config-default QoS and
retain flag. -/
def publish (s : HandlerState) (topic payload : String) (qos : Option Nat) (retain : Option Bool) :
    HandlerState × Except PyExc Unit :=
  if s.is_connected then
    let effective_qos := match qos with
      | some q => q
      | none => match s.config with
        | some c => c.qos
        | none => 0
    let effective_retain := match retain with
      | some r => r
      | none => match s.config with
        | some c => c.retain
        | none => false
    ({ s with clientCalls := s.clientCalls ++ [.publishCall topic payload effective_qos effective_retain] },
      .ok ())
  else
    (s, .error (.runtimeErr "Not connected to broker"))

/-- Model of the external `paho.mqtt.client.error_string`: a nonempty
human-readable rendering of a nonzero reason code. -/
def error_string (rc : Nat) : String :=
  "Connection failed, reason code " ++ toString rc

/-- Reason-code extraction of `MQTTHandler._on_connect` (lines 152–157):
under MQTTv5 the third callback argument is the reason code, under MQTTv3
the fourth (falling back to the third when absent). -/
def reason_code_of (version : Nat) (flags_or_rc : Nat) (rc_or_prop : Option Nat) : Nat :=
  if version = 5 then flags_or_rc
  else match rc_or_prop with
    | some rc => rc
    | none => flags_or_rc

/-- Translation of `MQTTHandler._on_connect` (lines 150–170): extract the
reason code for the protocol version in use; on success set
`is_connected`, resubscribe every registry entry, subscribe the config's
primary topic when nonempty, and report success; on failure report the
`error_string` of the code.  `self.config.mqtt_version` on a missing
config raises `AttributeError`. -/
def on_connect (s : HandlerState) (flags_or_rc : Nat) (rc_or_prop : Option Nat) :
    HandlerState × Except PyExc Unit :=
  match s.config with
  | none => (s, .error (.attributeErr "NoneType object has no attribute mqtt_version"))
  | some c =>
    let rc := reason_code_of c.mqtt_version flags_or_rc rc_or_prop
    if rc = 0 then
      let subCalls := s.wildcard_subscriptions.map fun p => ClientCall.subscribeCall p.1 p.2
      let subCalls := subCalls ++ (if c.topic ≠ "" then [ClientCall.subscribeCall c.topic c.qos] else [])
      ({ s with is_connected := true,
                clientCalls := s.clientCalls ++ subCalls,
                cbCalls := s.cbCalls ++ [(true, "")] }, .ok ())
    else
      ({ s with cbCalls := s.cbCalls ++ [(false, error_string rc)] }, .ok ())

/-- A concrete valid configuration, used by witnesses. -/
def witnessConfig : MQTTConfig :=
  { host := "h", port := 1883, protocol := "tcp", topic := "t/#" }

/-- A concrete configured, not-yet-connected handler state with one
registry entry, used by witnesses. -/
def witnessState : HandlerState :=
  { client := true, config := some witnessConfig, is_connected := false,
    wildcard_subscriptions := [("w/+", 1)], cbCalls := [], clientCalls := [] }

end Typed

namespace Utils

/-- State of `utils.mqtt_handler.MQTTHandler`: the optional client handle,
the connected flag, the disconnection-callback log and the client-call
log. -/
structure UState where
  client : Bool
  is_connected : Bool
  disconnCalls : List Int
  clientCalls : List ClientCall
deriving DecidableEq, Repr

/-- Translation of `MQTTHandler._cleanup_connection` (lines 59–69): when a
client exists, stop the network loop and disconnect it (exceptions are
logged and swallowed), then in the `finally` block release the handle and
clear the connected flag; with no client it is a no-op.  The method never
raises. -/
def cleanup_connection (s : UState) : UState :=
  if s.client then
    { s with clientCalls := s.clientCalls ++ [.loopStop, .disconnectCall],
             client := false, is_connected := false }
  else s

/-- Translation of `MQTTHandler.disconnect` (lines 71–73): delegates to
`_cleanup_connection`. -/
def disconnect (s : UState) : UState :=
  cleanup_connection s

/-- A concrete handler state with no client handle, used by witnesses. -/
def clientlessState : UState :=
  { client := false, is_connected := false, disconnCalls := [], clientCalls := [] }

end Utils

namespace Gui

/-- One per-topic counter pair of `MQTTBroadcaster.channel_stats`
(`{"received": int, "sent": int}`). -/
structure ChannelStat where
  received : Nat
  sent : Nat
deriving DecidableEq, Repr

/-- The `channel_stats` dict: an insertion-ordered mapping topic → counters
(Python dict keys are unique). -/
def StatsMap := List (String × ChannelStat)
deriving DecidableEq, Repr

/-- The `+= 1` on one key of a per-topic counter dict
(`self.channel_stats[channel][action] += 1`); other keys cannot occur at
the call sites (the source would raise `KeyError`). -/
def bumpStat (v : ChannelStat) (action : String) : ChannelStat :=
  if action = "received" then { v with received := v.received + 1 }
  else if action = "sent" then { v with sent := v.sent + 1 }
  else v

/-- Translation of `MQTTBroadcaster._update_channel_stats` (lines 390–394):
create the `{"received": 0, "sent": 0}` entry on first use (appended, as a
Python dict preserves insertion order), then increment the requested
counter.  The surrounding lock and the status-bar totals do not change the
mapping. -/
def update_channel_stats : StatsMap → String → String → StatsMap
  | [], channel, action => [(channel, bumpStat ⟨0, 0⟩ action)]
  | (k, v) :: rest, channel, action =>
    if k = channel then (k, bumpStat v action) :: rest
    else (k, v) :: update_channel_stats rest channel action

/-- Counter lookup in the stats mapping. -/
def lookupStat : StatsMap → String → Option ChannelStat
  | [], _ => none
  | (k, v) :: rest, channel => if k = channel then some v else lookupStat rest channel

/-- The `sent` counter of one topic (0 when the topic has no entry yet). -/
def sentCount (stats : StatsMap) (channel : String) : Nat :=
  match lookupStat stats channel with
  | some v => v.sent
  | none => 0

/-- The mutable counters of one broadcast operation
(`self._broadcast_stats`). -/
structure BStats where
  total_sent : Nat
  failed_sends : Nat
  total_messages : Nat
deriving DecidableEq, Repr

/-- The state a broadcast worker mutates while processing one job: the
shared channel statistics, the shared broadcast counters, and the error
lines posted to the UI. -/
structure WorkerCtx where
  channel_stats : StatsMap
  bstats : BStats
  errors : List String
deriving DecidableEq, Repr

/-- Translation of the per-job body of
`MQTTBroadcaster._worker_send_message` (lines 279–287): `pub` is the
outcome of `self.mqtt.publish(channel, message)`.  On success the worker
updates the channel's `sent` counter and increments `total_sent`; when
publish raises it increments `failed_sends` and posts an error line, and
nothing else changes.  (The progress recomputation, the delay sleep and
`task_done` mutate none of these counters.) -/
def worker_process_job (pub : Except String Unit) (w : WorkerCtx) (channel : String) : WorkerCtx :=
  match pub with
  | .ok _ =>
    { w with channel_stats := update_channel_stats w.channel_stats channel "sent",
             bstats := { w.bstats with total_sent := w.bstats.total_sent + 1 } }
  | .error e =>
    { w with bstats := { w.bstats with failed_sends := w.bstats.failed_sends + 1 },
             errors := w.errors ++ ["Failed to send to " ++ channel ++ ": " ++ e] }

/-- Translation of the queue-building loop of
`MQTTBroadcaster._perform_broadcast` (lines 254–258): for each of `count`
rounds, put every target channel once. -/
def perform_broadcast_queue (count : Nat) (targets : List String) : List String :=
  (List.range count).foldl (fun q _ => targets.foldl (fun q channel => q ++ [channel]) q) []

/-- What one worker thread is doing: about to call `get_nowait`, holding a
dequeued job whose publish/stats block has not run yet, or exited (its
`get_nowait` raised `Empty`). -/
inductive WStatus where
  | idle
  | holding (job : String)
  | exited
deriving DecidableEq, Repr

/-- Interleaved state of one broadcast: the shared `Queue`, the shared
worker context, the worker threads, whether the 100 ms completion poll
(`_check_broadcast_complete`) is still scheduled, and the
`_finalize_broadcast(total_sent, failed_sends)` invocations. -/
structure DispatchState where
  queue : List String
  ctx : WorkerCtx
  workers : List WStatus
  monitorActive : Bool
  completions : List (Nat × Nat)
deriving DecidableEq, Repr

/-- Atomic scheduler actions of the broadcast: worker `i` performs its
`get_nowait` (lines 275–278), worker `i` runs the publish/stats block for
the job it holds (lines 279–287), or the Tk event loop runs one
`_check_broadcast_complete` poll (lines 296–301). -/
inductive DAction where
  | dequeue (i : Nat)
  | process (i : Nat)
  | monitorCheck
deriving DecidableEq, Repr

/-- One interleaving step of the broadcast.  `pub` gives the outcome of
`self.mqtt.publish` on each topic.  `_check_broadcast_complete` calls
`_finalize_broadcast` as soon as `self._broadcast_queue.empty()` holds and
then stops rescheduling itself; otherwise it re-arms the 100 ms poll. -/
def dstep (pub : String → Except String Unit) (s : DispatchState) : DAction → DispatchState
  | .dequeue i =>
    match s.workers.get? i with
    | some .idle =>
      match s.queue with
      | [] => { s with workers := s.workers.set i .exited }
      | j :: rest => { s with queue := rest, workers := s.workers.set i (.holding j) }
    | _ => s
  | .process i =>
    match s.workers.get? i with
    | some (.holding j) =>
      { s with ctx := worker_process_job (pub j) s.ctx j, workers := s.workers.set i .idle }
    | _ => s
  | .monitorCheck =>
    if s.monitorActive then
      if s.queue.isEmpty then
        { s with completions := s.completions ++ [(s.ctx.bstats.total_sent, s.ctx.bstats.failed_sends)],
                 monitorActive := false }
      else s
    else s

/-- Run a schedule of actions in order. -/
def dispatchRun (pub : String → Except String Unit) (s : DispatchState) : List DAction → DispatchState
  | [] => s
  | a :: acts => dispatchRun pub (dstep pub s a) acts

/-- State right after `_perform_broadcast` (lines 243–270) has built the
queue and started `num_threads` workers and the completion poll. -/
def initDispatch (count : Nat) (targets : List String) (workerCount : Nat) : DispatchState :=
  { queue := perform_broadcast_queue count targets,
    ctx := { channel_stats := [],
             bstats := { total_sent := 0, failed_sends := 0, total_messages := count * targets.length },
             errors := [] },
    workers := List.replicate workerCount .idle,
    monitorActive := true,
    completions := [] }

/-! ### JSON persistence of `channel_stats`

`_save_channel_stats` is `json.dump(self.channel_stats, f)` and
`_load_channel_stats` is `json.load(f)`.  CPython's `json.dump` with its
defaults writes the dict-of-dicts as
`{"topic": {"received": R, "sent": S}, ...}` with separators `", "` and
`": "`, and with `ensure_ascii=True` escaping: `"` and `\` get a
backslash, the control characters BS/TAB/LF/FF/CR get their short escapes,
every other character outside U+0020–U+007E becomes `\uXXXX` (lowercase
hex, surrogate pairs for astral characters).  The renderer below produces
exactly that text, and the parser inverts it; the pair models the
dump/load round trip on the texts `save` writes.  On arbitrary file
contents `json.load` accepts strictly more than this grammar (any valid
JSON, of any shape), so for the general load path the outcome of the
external `json.load` call enters the model as an explicit parameter
(`gui_load_stats_file` / `qt_load_stats_file` below), the same convention
used for the external dial in `connect`. -/

/-- The character `\x7b` (opening brace). -/
def obrace : Char := Char.ofNat 123

/-- The character `\x7d` (closing brace). -/
def cbrace : Char := Char.ofNat 125

/-- Lowercase hexadecimal digit for `n < 16`. -/
def toHexDigit (n : Nat) : Char :=
  if n < 10 then Char.ofNat (48 + n) else Char.ofNat (87 + n)

/-- Value of a hexadecimal digit character. -/
def fromHexDigit (c : Char) : Option Nat :=
  if 48 ≤ c.toNat ∧ c.toNat ≤ 57 then some (c.toNat - 48)
  else if 97 ≤ c.toNat ∧ c.toNat ≤ 102 then some (c.toNat - 87)
  else if 65 ≤ c.toNat ∧ c.toNat ≤ 70 then some (c.toNat - 55)
  else none

/-- The four hex digits of a `\uXXXX` escape (`n < 65536`). -/
def encodeHex4 (n : Nat) : List Char :=
  [toHexDigit (n / 4096 % 16), toHexDigit (n / 256 % 16), toHexDigit (n / 16 % 16), toHexDigit (n % 16)]

/-- How `json.dump` (with `ensure_ascii=True`) writes one character of a
string. -/
def escapeChar (c : Char) : List Char :=
  let n := c.toNat
  if n = 34 then ['\\', '"']
  else if n = 92 then ['\\', '\\']
  else if n = 8 then ['\\', 'b']
  else if n = 9 then ['\\', 't']
  else if n = 10 then ['\\', 'n']
  else if n = 12 then ['\\', 'f']
  else if n = 13 then ['\\', 'r']
  else if 32 ≤ n ∧ n ≤ 126 then [c]
  else if n < 65536 then '\\' :: 'u' :: encodeHex4 n
  else
    '\\' :: 'u' :: encodeHex4 (55296 + (n - 65536) / 1024) ++
      '\\' :: 'u' :: encodeHex4 (56320 + (n - 65536) % 1024)

/-- Escape every character of a string body. -/
def escapeString (s : List Char) : List Char :=
  s.flatMap escapeChar

/-- A JSON string token: quote, escaped body, quote. -/
def renderJString (s : List Char) : List Char :=
  '"' :: escapeString s ++ ['"']

/-- Decimal digits of a natural number, most significant first
(accumulator form). -/
def renderNatAux : Nat → List Char → List Char
  | n, acc =>
    if h : n < 10 then Char.ofNat (48 + n) :: acc
    else renderNatAux (n / 10) (Char.ofNat (48 + n % 10) :: acc)
  termination_by n => n
  decreasing_by omega

/-- Decimal rendering of a natural number, as `json.dump` writes a
nonnegative `int`. -/
def renderNat (n : Nat) : List Char :=
  renderNatAux n []

/-- One `{"received": R, "sent": S}` object (the inner dict is always
created with keys in this insertion order). -/
def renderStat (v : ChannelStat) : List Char :=
  obrace :: ("\"received\": ".toList ++ renderNat v.received ++
    ", \"sent\": ".toList ++ renderNat v.sent) ++ [cbrace]

/-- One `"topic": {...}` member. -/
def renderEntry (e : String × ChannelStat) : List Char :=
  renderJString e.1.toList ++ ": ".toList ++ renderStat e.2

/-- The members of the outer object, joined by `", "`. -/
def renderEntryList : StatsMap → List Char
  | [] => []
  | [e] => renderEntry e
  | e :: rest => renderEntry e ++ ',' :: ' ' :: renderEntryList rest

/-- The full text `json.dump` writes for the stats dict. -/
def renderStats (m : StatsMap) : List Char :=
  obrace :: renderEntryList m ++ [cbrace]

/-- Consume an exact literal prefix. -/
def parseLit : List Char → List Char → Option (List Char)
  | [], l => some l
  | _ :: _, [] => none
  | c :: cs, x :: xs => if x = c then parseLit cs xs else none

/-- Parse four hex digits of a `\uXXXX` escape. -/
def parseHex4 : List Char → Option (Nat × List Char)
  | h3 :: h2 :: h1 :: h0 :: rest =>
    match fromHexDigit h3, fromHexDigit h2, fromHexDigit h1, fromHexDigit h0 with
    | some d3, some d2, some d1, some d0 => some (d3 * 4096 + d2 * 256 + d1 * 16 + d0, rest)
    | _, _, _, _ => none
  | _ => none

/-- Decode one escape sequence (the part after the backslash), yielding
the denoted character and the remaining input.  A `\u` escape carrying a
high surrogate must be followed by a low-surrogate `\u` escape; a lone
surrogate is refused. -/
def parseEscape : List Char → Option (Char × List Char)
  | [] => none
  | e :: t =>
    if e = '"' ∨ e = '\\' ∨ e = '/' then some (e, t)
    else if e = 'b' then some (Char.ofNat 8, t)
    else if e = 't' then some (Char.ofNat 9, t)
    else if e = 'n' then some (Char.ofNat 10, t)
    else if e = 'f' then some (Char.ofNat 12, t)
    else if e = 'r' then some (Char.ofNat 13, t)
    else if e = 'u' then
      match parseHex4 t with
      | none => none
      | some (n, t') =>
        if 55296 ≤ n ∧ n ≤ 56319 then
          match t' with
          | b1 :: b2 :: t'' =>
            if b1 = '\\' ∧ b2 = 'u' then
              match parseHex4 t'' with
              | none => none
              | some (n2, t2) =>
                if 56320 ≤ n2 ∧ n2 ≤ 57343 then
                  some (Char.ofNat (65536 + (n - 55296) * 1024 + (n2 - 56320)), t2)
                else none
            else none
          | _ => none
        else if 56320 ≤ n ∧ n ≤ 57343 then none
        else some (Char.ofNat n, t')
    else none

/-- Parse the body of a JSON string after the opening quote, undoing the
escapes, up to and beyond the closing quote.  `fuel` bounds the number of
decoded characters; each decoded character consumes at least one input
character, so fuel equal to the input length always suffices. -/
def parseJStringBodyAux : Nat → List Char → Option (List Char × List Char)
  | 0, _ => none
  | fuel + 1, l =>
    match l with
    | [] => none
    | c :: rest =>
      if c = '"' then some ([], rest)
      else if c = '\\' then
        match parseEscape rest with
        | none => none
        | some (d, t) => (parseJStringBodyAux fuel t).map fun p => (d :: p.1, p.2)
      else (parseJStringBodyAux fuel rest).map fun p => (c :: p.1, p.2)

/-- Parse a JSON string body with always-sufficient fuel. -/
def parseJStringBody (l : List Char) : Option (List Char × List Char) :=
  parseJStringBodyAux (l.length + 1) l

/-- Parse a complete JSON string token. -/
def parseJString : List Char → Option (List Char × List Char)
  | [] => none
  | c :: rest => if c = '"' then parseJStringBody rest else none

/-- Split off the leading run of decimal digits. -/
def takeDigits : List Char → List Char × List Char
  | [] => ([], [])
  | c :: t =>
    if c.isDigit then
      let p := takeDigits t
      (c :: p.1, p.2)
    else ([], c :: t)

/-- Value of a most-significant-first digit list. -/
def digitsVal (acc : Nat) (l : List Char) : Nat :=
  l.foldl (fun a c => a * 10 + (c.toNat - 48)) acc

/-- Parse a nonnegative decimal integer token. -/
def parseNat (l : List Char) : Option (Nat × List Char) :=
  match takeDigits l with
  | ([], _) => none
  | (ds, rest) => some (digitsVal 0 ds, rest)

/-- Parse one inner `{"received": R, "sent": S}` object. -/
def parseStat (l : List Char) : Option (ChannelStat × List Char) := do
  let l ← parseLit (obrace :: "\"received\": ".toList) l
  let (r, l) ← parseNat l
  let l ← parseLit ", \"sent\": ".toList l
  let (s, l) ← parseNat l
  let l ← parseLit [cbrace] l
  some (⟨r, s⟩, l)

/-- Parse the members of a nonempty outer object up to and beyond its
closing brace.  `fuel` bounds the number of members (any bound at least
the member count gives the same answer). -/
def parseEntriesAux : Nat → List Char → Option (StatsMap × List Char)
  | 0, _ => none
  | fuel + 1, l => do
    let (k, l) ← parseJString l
    let l ← parseLit ": ".toList l
    let (v, l) ← parseStat l
    match l with
    | [] => none
    | c :: t =>
      if c = cbrace then some ([(k.asString, v)], t)
      else if c = ',' then
        match t with
        | [] => none
        | sp :: t2 =>
          if sp = ' ' then
            (parseEntriesAux fuel t2).map fun p => ((k.asString, v) :: p.1, p.2)
          else none
      else none

/-- Parse the full persisted stats document (the whole file must be one
object, as `json.load` consumes the complete text). -/
def parseStats (l : List Char) : Option StatsMap :=
  match l with
  | [] => none
  | c :: rest =>
    if c = obrace then
      match rest with
      | [] => none
      | d :: rest2 =>
        if d = cbrace then (if rest2 = [] then some [] else none)
        else
          match parseEntriesAux (l.length) rest with
          | some (m, []) => some m
          | _ => none
    else none

/-- The text `_save_channel_stats` (lines 409–414) writes to
`channel_stats.json`. -/
def save_channel_stats (m : StatsMap) : String :=
  String.mk (renderStats m)

/-- The load path of `MQTTBroadcaster._load_channel_stats`
(lines 400–407) restricted to the domain the round-trip claim exercises:
`file` is the content of `channel_stats.json` when it exists, and the
parse is `parseStats`, which agrees with the external `json.load` exactly
on the texts `save_channel_stats` writes (`parseStats_renderStats`).  A
missing file is skipped (the `os.path.exists` guard); a successful parse
is assigned to `channel_stats`.  This definition backs only the
save-then-load round trip; the general error path of the method — where
`json.load` can succeed on arbitrary valid JSON of any shape, or raise —
is modelled by `gui_load_stats_file` below with the `json.load` outcome
made explicit. -/
def load_channel_stats (file : Option String) (stats : StatsMap) : StatsMap × Bool :=
  match file with
  | none => (stats, false)
  | some s =>
    match parseStats s.toList with
    | some m => (m, false)
    | none => (stats, true)

/-- A Python value as returned by the external `json.load`, as far as the
claims need to distinguish shapes.  The load theorems below are stated
for an arbitrary value type; `PyValue` only provides concrete instances
(such as the legacy flat topic→int dict), so numeric values beyond `int`
need no constructor of their own. -/
inductive PyValue where
  | pyNone
  | pyBool (b : Bool)
  | pyInt (n : Int)
  | pyStr (s : String)
  | pyList (items : List PyValue)
  | pyDict (entries : List (String × PyValue))

/-- Translation of `MQTTBroadcaster._load_channel_stats`
(`src/gui/main_window.py` lines 400–407) with the outcomes of the
external calls made explicit: `fileExists` is the `os.path.exists` test
and `jsonResult` the outcome of `json.load` — `none` when it raises,
`some v` when it returns the deserialised value `v`, which can be any
valid JSON of any shape and any value type.  A missing file is skipped
silently; a `json.load` failure is caught and reported through
`_display_message("Error", ...)` (the returned flag), leaving
`channel_stats` unchanged; a parsed value, whatever its shape, is
assigned to `channel_stats` with no error line.  The method never
raises. -/
def gui_load_stats_file {α : Type} (fileExists : Bool) (jsonResult : Option α)
    (channel_stats : α) : α × Bool :=
  if fileExists then
    match jsonResult with
    | some v => (v, false)
    | none => (channel_stats, true)
  else (channel_stats, false)

/-- Translation of `MQTTBroadcaster.load_channel_stats` of
`src/qt_mqtt_broadcaster.py` (lines 807–814), same conventions as
`gui_load_stats_file`: there is no existence check, so a missing file
makes `open` raise, which is caught and logged (`logger.info`) exactly
like a `json.load` failure; a parsed value of any shape is assigned to
`channel_stats` silently. -/
def qt_load_stats_file {α : Type} (fileExists : Bool) (jsonResult : Option α)
    (channel_stats : α) : α × Bool :=
  if fileExists then
    match jsonResult with
    | some v => (v, false)
    | none => (channel_stats, true)
  else (channel_stats, true)

/-- The interleaving of `count=3`, `targets=["a","b"]`, `workers=1` in
which the 100 ms completion poll runs between the worker's `get_nowait`
of the sixth job and the worker's publish/stats block for it. -/
def lateDequeueSchedule : List DAction :=
  [.dequeue 0, .process 0, .dequeue 0, .process 0, .dequeue 0, .process 0,
   .dequeue 0, .process 0, .dequeue 0, .process 0, .dequeue 0, .monitorCheck]

end Gui

end OMB

/-! ## Theorems -/

namespace OMB.Gui

theorem toNat_ofNat_valid (n : Nat) (h : n.isValidChar) : (Char.ofNat n).toNat = n := by
  rw [Char.ofNat, dif_pos h]
  rfl

theorem toNat_ofNat_small (n : Nat) (h : n < 55296) : (Char.ofNat n).toNat = n :=
  toNat_ofNat_valid n (Or.inl h)

theorem char_toNat_lt (c : Char) : c.toNat < 1114112 := by
  rcases c.valid with h | ⟨_, h2⟩
  · exact Nat.lt_trans h (by norm_num)
  · exact h2

theorem char_not_surrogate (c : Char) : ¬ (55296 ≤ c.toNat ∧ c.toNat ≤ 57343) := by
  rcases c.valid with h | ⟨h1, _⟩
  · have h' : c.toNat < 55296 := h
    omega
  · have h' : 57343 < c.toNat := h1
    omega

theorem eq_of_toNat_eq (c : Char) (n : Nat) (h : c.toNat = n) : c = Char.ofNat n := by
  rw [← h, Char.ofNat_toNat]

theorem fromHex_toHex (n : Nat) (h : n < 16) : fromHexDigit (toHexDigit n) = some n := by
  unfold toHexDigit fromHexDigit
  by_cases h10 : n < 10
  · rw [if_pos h10, toNat_ofNat_small (48 + n) (by omega), if_pos (by omega)]
    simp
  · rw [if_neg h10, toNat_ofNat_small (87 + n) (by omega), if_neg (by omega),
      if_pos (by omega)]
    simp

theorem parseAux_quote (fuel : Nat) (t : List Char) :
    parseJStringBodyAux (fuel + 1) ('"' :: t) = some ([], t) :=
  rfl

theorem parseAux_plain (fuel : Nat) (c : Char) (h1 : c ≠ '"') (h2 : c ≠ '\\') (t : List Char) :
    parseJStringBodyAux (fuel + 1) (c :: t) =
      (parseJStringBodyAux fuel t).map fun p => (c :: p.1, p.2) := by
  rw [parseJStringBodyAux]
  rw [if_neg h1, if_neg h2]

theorem parseHex4_encodeHex4 (n : Nat) (h : n < 65536) (rest : List Char) :
    parseHex4 (encodeHex4 n ++ rest) = some (n, rest) := by
  have h3 := fromHex_toHex (n / 4096 % 16) (Nat.mod_lt _ (by omega))
  have h2 := fromHex_toHex (n / 256 % 16) (Nat.mod_lt _ (by omega))
  have h1 := fromHex_toHex (n / 16 % 16) (Nat.mod_lt _ (by omega))
  have h0 := fromHex_toHex (n % 16) (Nat.mod_lt _ (by omega))
  simp only [encodeHex4, List.cons_append, List.nil_append, parseHex4, h3, h2, h1, h0]
  congr 1
  congr 1
  omega

theorem parseAux_backslash (fuel : Nat) (l t : List Char) (d : Char)
    (h : parseEscape l = some (d, t)) :
    parseJStringBodyAux (fuel + 1) ('\\' :: l) =
      (parseJStringBodyAux fuel t).map fun p => (d :: p.1, p.2) := by
  rw [parseJStringBodyAux]
  rw [if_neg (by decide), if_pos rfl, h]

theorem parseEscape_quote (t : List Char) : parseEscape ('"' :: t) = some ('"', t) := by
  simp [parseEscape]

theorem parseEscape_backslash (t : List Char) : parseEscape ('\\' :: t) = some ('\\', t) := by
  simp [parseEscape]

theorem parseEscape_b (t : List Char) : parseEscape ('b' :: t) = some (Char.ofNat 8, t) := by
  simp [parseEscape]

theorem parseEscape_t (t : List Char) : parseEscape ('t' :: t) = some (Char.ofNat 9, t) := by
  simp [parseEscape]

theorem parseEscape_n (t : List Char) : parseEscape ('n' :: t) = some (Char.ofNat 10, t) := by
  simp [parseEscape]

theorem parseEscape_f (t : List Char) : parseEscape ('f' :: t) = some (Char.ofNat 12, t) := by
  simp [parseEscape]

theorem parseEscape_r (t : List Char) : parseEscape ('r' :: t) = some (Char.ofNat 13, t) := by
  simp [parseEscape]

theorem parseEscape_u (n : Nat) (hlt : n < 65536) (hs : ¬(55296 ≤ n ∧ n ≤ 57343))
    (t : List Char) :
    parseEscape ('u' :: (encodeHex4 n ++ t)) = some (Char.ofNat n, t) := by
  rw [parseEscape]
  rw [if_neg (by decide), if_neg (by decide), if_neg (by decide), if_neg (by decide),
    if_neg (by decide), if_neg (by decide), if_pos rfl, parseHex4_encodeHex4 n hlt]
  dsimp only
  rw [if_neg (by omega), if_neg (by omega)]

theorem parseEscape_u_pair (n : Nat) (h1 : 65536 ≤ n) (h2 : n < 1114112) (t : List Char) :
    parseEscape ('u' :: (encodeHex4 (55296 + (n - 65536) / 1024) ++
      '\\' :: 'u' :: encodeHex4 (56320 + (n - 65536) % 1024) ++ t)) = some (Char.ofNat n, t) := by
  have hhi : 55296 + (n - 65536) / 1024 < 65536 := by omega
  have hlo : 56320 + (n - 65536) % 1024 < 65536 := by omega
  rw [parseEscape]
  rw [if_neg (by decide), if_neg (by decide), if_neg (by decide), if_neg (by decide),
    if_neg (by decide), if_neg (by decide), if_pos rfl]
  rw [show encodeHex4 (55296 + (n - 65536) / 1024) ++
      '\\' :: 'u' :: encodeHex4 (56320 + (n - 65536) % 1024) ++ t =
      encodeHex4 (55296 + (n - 65536) / 1024) ++
      ('\\' :: 'u' :: (encodeHex4 (56320 + (n - 65536) % 1024) ++ t)) by simp]
  rw [parseHex4_encodeHex4 _ hhi]
  dsimp only
  rw [if_pos (by omega : 55296 ≤ 55296 + (n - 65536) / 1024 ∧ 55296 + (n - 65536) / 1024 ≤ 56319)]
  rw [if_pos (by exact ⟨rfl, rfl⟩ : ('\\' : Char) = '\\' ∧ ('u' : Char) = 'u')]
  rw [parseHex4_encodeHex4 _ hlo]
  dsimp only
  rw [if_pos (by omega : 56320 ≤ 56320 + (n - 65536) % 1024 ∧ 56320 + (n - 65536) % 1024 ≤ 57343)]
  rw [show 65536 + (55296 + (n - 65536) / 1024 - 55296) * 1024 +
      (56320 + (n - 65536) % 1024 - 56320) = n by omega]

theorem parse_escapeChar (fuel : Nat) (c : Char) (t : List Char) :
    parseJStringBodyAux (fuel + 1) (escapeChar c ++ t) =
      (parseJStringBodyAux fuel t).map fun p => (c :: p.1, p.2) := by
  unfold escapeChar
  simp only []
  split_ifs with h34 h92 h8 h9 h10 h12 h13 hplain hbmp
  · rw [show c = '"' by rw [eq_of_toNat_eq c 34 h34]]
    exact parseAux_backslash fuel _ t _ (parseEscape_quote t)
  · rw [show c = '\\' by rw [eq_of_toNat_eq c 92 h92]]
    exact parseAux_backslash fuel _ t _ (parseEscape_backslash t)
  · rw [eq_of_toNat_eq c 8 h8]
    exact parseAux_backslash fuel _ t _ (parseEscape_b t)
  · rw [eq_of_toNat_eq c 9 h9]
    exact parseAux_backslash fuel _ t _ (parseEscape_t t)
  · rw [eq_of_toNat_eq c 10 h10]
    exact parseAux_backslash fuel _ t _ (parseEscape_n t)
  · rw [eq_of_toNat_eq c 12 h12]
    exact parseAux_backslash fuel _ t _ (parseEscape_f t)
  · rw [eq_of_toNat_eq c 13 h13]
    exact parseAux_backslash fuel _ t _ (parseEscape_r t)
  · refine parseAux_plain fuel c ?_ ?_ t
    · intro hc
      exact h34 (by rw [hc]; rfl)
    · intro hc
      exact h92 (by rw [hc]; rfl)
  · have := parseAux_backslash fuel ('u' :: (encodeHex4 c.toNat ++ t)) t (Char.ofNat c.toNat)
      (parseEscape_u c.toNat hbmp (char_not_surrogate c) t)
    rw [Char.ofNat_toNat] at this
    simpa using this
  · have hge : 65536 ≤ c.toNat := by omega
    have := parseAux_backslash fuel
      ('u' :: (encodeHex4 (55296 + (c.toNat - 65536) / 1024) ++
        '\\' :: 'u' :: encodeHex4 (56320 + (c.toNat - 65536) % 1024) ++ t)) t (Char.ofNat c.toNat)
      (parseEscape_u_pair c.toNat hge (char_toNat_lt c) t)
    rw [Char.ofNat_toNat] at this
    simpa using this

theorem escapeChar_length_pos (c : Char) : 1 ≤ (escapeChar c).length := by
  unfold escapeChar
  simp only []
  split_ifs <;> simp

theorem escapeString_length (s : List Char) : s.length ≤ (escapeString s).length := by
  induction s with
  | nil => simp [escapeString]
  | cons c s ih =>
    have h1 := escapeChar_length_pos c
    simp only [escapeString] at ih ⊢
    simp only [List.flatMap_cons, List.length_append, List.length_cons]
    omega

theorem parse_escapeString (s : List Char) : ∀ (fuel : Nat) (rest : List Char),
    s.length + 1 ≤ fuel →
    parseJStringBodyAux fuel (escapeString s ++ '"' :: rest) = some (s, rest) := by
  induction s with
  | nil =>
    intro fuel rest hf
    obtain ⟨f, rfl⟩ : ∃ f, fuel = f + 1 := ⟨fuel - 1, by omega⟩
    simpa [escapeString] using parseAux_quote f rest
  | cons c s ih =>
    intro fuel rest hf
    obtain ⟨f, rfl⟩ : ∃ f, fuel = f + 1 := ⟨fuel - 1, by omega⟩
    have hin : escapeString (c :: s) ++ '"' :: rest =
        escapeChar c ++ (escapeString s ++ '"' :: rest) := by
      simp [escapeString]
    rw [hin, parse_escapeChar f c _, ih f rest (by simpa using Nat.lt_succ_iff.mp hf)]
    rfl

theorem parse_renderJString (l : List Char) (rest : List Char) :
    parseJString (renderJString l ++ rest) = some (l, rest) := by
  have hshape : renderJString l ++ rest = '"' :: (escapeString l ++ '"' :: rest) := by
    simp [renderJString]
  rw [hshape]
  show parseJStringBody (escapeString l ++ '"' :: rest) = some (l, rest)
  unfold parseJStringBody
  refine parse_escapeString l _ rest ?_
  have h1 := escapeString_length l
  simp only [List.length_append, List.length_cons]
  omega

theorem renderNatAux_append (n : Nat) : ∀ acc : List Char,
    renderNatAux n acc = renderNatAux n [] ++ acc := by
  induction n using Nat.strong_induction_on with
  | _ n ih =>
    intro acc
    by_cases h : n < 10
    · conv_lhs => rw [renderNatAux]
      conv_rhs => rw [renderNatAux]
      rw [dif_pos h, dif_pos h]
      simp
    · conv_lhs => rw [renderNatAux]
      conv_rhs => rw [renderNatAux]
      rw [dif_neg h, dif_neg h]
      rw [ih (n / 10) (by omega), ih (n / 10) (by omega) [Char.ofNat (48 + n % 10)]]
      simp

theorem renderNat_small (n : Nat) (h : n < 10) : renderNat n = [Char.ofNat (48 + n)] := by
  unfold renderNat
  rw [renderNatAux, dif_pos h]

theorem renderNat_step (n : Nat) (h : ¬ n < 10) :
    renderNat n = renderNat (n / 10) ++ [Char.ofNat (48 + n % 10)] := by
  unfold renderNat
  conv_lhs => rw [renderNatAux]
  rw [dif_neg h, renderNatAux_append]

theorem digitChar_isDigit (m : Nat) (h : m < 10) : (Char.ofNat (48 + m)).isDigit = true := by
  interval_cases m <;> decide

theorem renderNat_digits (n : Nat) : ∀ c ∈ renderNat n, c.isDigit = true := by
  induction n using Nat.strong_induction_on with
  | _ n ih =>
    by_cases h : n < 10
    · rw [renderNat_small n h]
      intro c hc
      rw [List.mem_singleton] at hc
      rw [hc]
      exact digitChar_isDigit n h
    · rw [renderNat_step n h]
      intro c hc
      rcases List.mem_append.mp hc with hc | hc
      · exact ih (n / 10) (by omega) c hc
      · rw [List.mem_singleton] at hc
        rw [hc]
        exact digitChar_isDigit (n % 10) (by omega)

theorem renderNat_ne_nil (n : Nat) : renderNat n ≠ [] := by
  by_cases h : n < 10
  · rw [renderNat_small n h]
    simp
  · rw [renderNat_step n h]
    simp

theorem takeDigits_append (ds : List Char) (rest : List Char)
    (hd : ∀ c ∈ ds, c.isDigit = true)
    (hr : ∀ c, rest.head? = some c → c.isDigit = false) :
    takeDigits (ds ++ rest) = (ds, rest) := by
  induction ds with
  | nil =>
    cases rest with
    | nil => rfl
    | cons c t =>
      simp only [List.nil_append, takeDigits]
      rw [hr c rfl]
      simp
  | cons c ds ih =>
    simp only [List.cons_append, takeDigits, List.append_eq]
    rw [hd c (by simp), ih fun x hx => hd x (by simp [hx])]
    simp

theorem digitsVal_append (xs ys : List Char) (a : Nat) :
    digitsVal a (xs ++ ys) = digitsVal (digitsVal a xs) ys := by
  simp [digitsVal, List.foldl_append]

theorem digitsVal_renderNat (n : Nat) : ∀ a : Nat,
    digitsVal a (renderNat n) = a * 10 ^ (renderNat n).length + n := by
  induction n using Nat.strong_induction_on with
  | _ n ih =>
    intro a
    by_cases h : n < 10
    · rw [renderNat_small n h]
      simp only [digitsVal, List.foldl_cons, List.foldl_nil, List.length_singleton]
      rw [toNat_ofNat_small (48 + n) (by omega)]
      ring_nf
      omega
    · rw [renderNat_step n h, digitsVal_append, ih (n / 10) (by omega) a]
      simp only [digitsVal, List.foldl_cons, List.foldl_nil,
        toNat_ofNat_small (48 + n % 10) (by omega),
        List.length_append, List.length_singleton, Nat.add_sub_cancel_left]
      rw [pow_succ]
      have hdm : n / 10 * 10 + n % 10 = n := by omega
      calc (a * 10 ^ (renderNat (n / 10)).length + n / 10) * 10 + n % 10
          = a * (10 ^ (renderNat (n / 10)).length * 10) + (n / 10 * 10 + n % 10) := by ring
        _ = a * (10 ^ (renderNat (n / 10)).length * 10) + n := by rw [hdm]

theorem parseNat_renderNat (n : Nat) (rest : List Char)
    (hr : ∀ c, rest.head? = some c → c.isDigit = false) :
    parseNat (renderNat n ++ rest) = some (n, rest) := by
  unfold parseNat
  rw [takeDigits_append (renderNat n) rest (renderNat_digits n) hr]
  cases hne : renderNat n with
  | nil => exact absurd hne (renderNat_ne_nil n)
  | cons d ds =>
    dsimp only
    rw [← hne, show digitsVal 0 (renderNat n) = n from by simpa using digitsVal_renderNat n 0]

theorem parseLit_append (lit rest : List Char) : parseLit lit (lit ++ rest) = some rest := by
  induction lit with
  | nil => rfl
  | cons c cs ih =>
    simp only [List.cons_append, parseLit, if_pos rfl]
    exact ih

theorem parseStat_renderStat (v : ChannelStat) (rest : List Char) :
    parseStat (renderStat v ++ rest) = some (v, rest) := by
  obtain ⟨r, s⟩ := v
  have hshape : renderStat ⟨r, s⟩ ++ rest =
      (obrace :: "\"received\": ".toList) ++
        (renderNat r ++ (", \"sent\": ".toList ++ (renderNat s ++ ([cbrace] ++ rest)))) := by
    simp [renderStat]
  have hhead1 : ∀ x : Char,
      (", \"sent\": ".toList ++ (renderNat s ++ ([cbrace] ++ rest))).head? = some x →
      x.isDigit = false := by
    intro x hx
    rw [show ", \"sent\": ".toList ++ (renderNat s ++ ([cbrace] ++ rest)) =
      ',' :: (" \"sent\": ".toList ++ (renderNat s ++ ([cbrace] ++ rest))) from rfl,
      List.head?_cons, Option.some.injEq] at hx
    rw [← hx]
    decide
  have hhead2 : ∀ x : Char, ([cbrace] ++ rest).head? = some x → x.isDigit = false := by
    intro x hx
    rw [show [cbrace] ++ rest = cbrace :: rest from rfl, List.head?_cons, Option.some.injEq] at hx
    rw [← hx]
    decide
  rw [hshape]
  unfold parseStat
  rw [parseLit_append]
  simp only [Option.bind_eq_bind, Option.some_bind]
  rw [parseNat_renderNat r _ hhead1]
  simp only [Option.some_bind]
  rw [parseLit_append]
  simp only [Option.some_bind]
  rw [parseNat_renderNat s _ hhead2]
  simp only [Option.some_bind]
  rw [parseLit_append]
  rfl

theorem parseEntries_render : ∀ (m : StatsMap) (fuel : Nat), m ≠ [] → m.length ≤ fuel →
    ∀ rest, parseEntriesAux fuel (renderEntryList m ++ cbrace :: rest) = some (m, rest) := by
  intro m
  induction m with
  | nil =>
    intro fuel hne
    exact absurd rfl hne
  | cons e m' ih =>
    intro fuel _ hf rest
    obtain ⟨f, rfl⟩ : ∃ f, fuel = f + 1 := ⟨fuel - 1, by simp at hf; omega⟩
    cases m' with
    | nil =>
      have hshape : renderEntryList [e] ++ cbrace :: rest =
          renderJString e.1.toList ++ (": ".toList ++ (renderStat e.2 ++ cbrace :: rest)) := by
        simp [renderEntryList, renderEntry]
      rw [hshape, parseEntriesAux]
      simp only [Option.bind_eq_bind]
      rw [parse_renderJString]
      simp only [Option.some_bind]
      rw [parseLit_append]
      simp only [Option.some_bind]
      rw [show renderStat e.2 ++ cbrace :: rest = renderStat e.2 ++ [cbrace] ++ rest by simp,
        List.append_assoc, parseStat_renderStat]
      simp only [Option.some_bind]
      rfl
    | cons e' m'' =>
      have hshape : renderEntryList (e :: e' :: m'') ++ cbrace :: rest =
          renderJString e.1.toList ++ (": ".toList ++ (renderStat e.2 ++
            ',' :: ' ' :: (renderEntryList (e' :: m'') ++ cbrace :: rest))) := by
        simp [renderEntryList, renderEntry]
      rw [hshape, parseEntriesAux]
      simp only [Option.bind_eq_bind]
      rw [parse_renderJString]
      simp only [Option.some_bind]
      rw [parseLit_append]
      simp only [Option.some_bind]
      rw [show renderStat e.2 ++ ',' :: ' ' :: (renderEntryList (e' :: m'') ++ cbrace :: rest) =
        renderStat e.2 ++ (',' :: ' ' :: (renderEntryList (e' :: m'') ++ cbrace :: rest)) from rfl,
        parseStat_renderStat]
      simp only [Option.some_bind]
      rw [if_pos trivial, if_pos trivial]
      rw [ih f (by simp) (by simp at hf ⊢; omega) rest]
      rfl

theorem renderEntryList_cons_head (e : String × ChannelStat) (m' : StatsMap) :
    ∃ tl, renderEntryList (e :: m') = '"' :: tl := by
  cases m' with
  | nil =>
    refine ⟨escapeString e.1.toList ++ '"' :: ':' :: ' ' :: renderStat e.2, ?_⟩
    simp [renderEntryList, renderEntry, renderJString]
  | cons e' m'' =>
    refine ⟨escapeString e.1.toList ++
      '"' :: ':' :: ' ' :: (renderStat e.2 ++ ',' :: ' ' :: renderEntryList (e' :: m'')), ?_⟩
    simp [renderEntryList, renderEntry, renderJString]

theorem renderEntryList_length (m : StatsMap) : m.length ≤ (renderEntryList m).length + 1 := by
  induction m with
  | nil => simp
  | cons e m' ih =>
    cases m' with
    | nil => simp [renderEntryList, renderEntry, renderJString]
    | cons e' m'' =>
      simp only [renderEntryList, List.length_append, List.length_cons] at ih ⊢
      omega

theorem parseStats_cons (c : Char) (rest : List Char) :
    parseStats (c :: rest) =
      if c = obrace then
        match rest with
        | [] => none
        | d :: rest2 =>
          if d = cbrace then (if rest2 = [] then some [] else none)
          else
            match parseEntriesAux ((c :: rest).length) rest with
            | some (m, []) => some m
            | _ => none
      else none :=
  rfl

theorem parseStats_renderStats (m : StatsMap) : parseStats (renderStats m) = some m := by
  cases m with
  | nil => decide
  | cons e m' =>
    obtain ⟨tl, htl⟩ := renderEntryList_cons_head e m'
    have hres : renderEntryList (e :: m') ++ [cbrace] = '"' :: (tl ++ [cbrace]) := by
      rw [htl]
      simp
    rw [show renderStats (e :: m') = obrace :: (renderEntryList (e :: m') ++ [cbrace]) from rfl]
    rw [parseStats_cons, if_pos rfl, hres]
    dsimp only
    rw [if_neg (by decide : ¬ ('"' : Char) = cbrace), ← hres]
    rw [show renderEntryList (e :: m') ++ [cbrace] = renderEntryList (e :: m') ++ cbrace :: [] from rfl]
    rw [parseEntries_render (e :: m') _ (by simp) (by
      have h1 := renderEntryList_length (e :: m')
      simp only [List.length_cons, List.length_append, List.length_singleton] at h1 ⊢
      omega) []]

/-- C7: for every channel-stats mapping (Python dict keys are unique,
hence the `Nodup` hypothesis), saving to the stats file and loading it
back yields exactly the mapping that was saved, every integer counter
round-tripped exactly. -/
theorem channel_stats_roundtrip (m : StatsMap) (h : (m.map Prod.fst).Nodup) :
    load_channel_stats (some (save_channel_stats m)) [] = (m, false) := by
  have h1 : parseStats (save_channel_stats m).toList = some m := by
    rw [show (save_channel_stats m).toList = renderStats m from rfl]
    exact parseStats_renderStats m
  unfold load_channel_stats
  dsimp only
  rw [h1]

/-- Witness for C7 at a concrete two-topic mapping. -/
theorem channel_stats_roundtrip_witness :
    (([("a", ⟨1, 2⟩), ("b/c", ⟨0, 10⟩)] : StatsMap).map Prod.fst).Nodup ∧
    load_channel_stats (some (save_channel_stats [("a", ⟨1, 2⟩), ("b/c", ⟨0, 10⟩)])) [] =
      ([("a", ⟨1, 2⟩), ("b/c", ⟨0, 10⟩)], false) :=
  ⟨by decide, channel_stats_roundtrip [("a", ⟨1, 2⟩), ("b/c", ⟨0, 10⟩)] (by decide)⟩

/-- C8 counterexample: the claim fails on the program as stated.  In the
gui variant a *missing* stats file is skipped by the `os.path.exists`
guard without logging anything (first conjunct, flag `false`); and a file
whose content `json.load` parses to a value that is not a stats mapping —
here the legacy flat `{"topic": 5}` shape — is assigned to the store
silently, leaving it neither logged about nor empty (second conjunct). -/
theorem load_problems_unlogged_counterexample :
    gui_load_stats_file false (none : Option PyValue) (PyValue.pyDict []) =
      (PyValue.pyDict [], false) ∧
    gui_load_stats_file true (some (PyValue.pyDict [("topic", PyValue.pyInt 5)]))
        (PyValue.pyDict []) =
      (PyValue.pyDict [("topic", PyValue.pyInt 5)], false) :=
  ⟨rfl, rfl⟩

/-- C8 amended: for every outcome of the external open / `json.load`
calls, load never raises to the caller (both functions are total); when
`json.load` raises — malformed contents — the failure is caught and
logged in both variants and the store is left unchanged, hence the empty
mapping at startup; a missing file also leaves the store unchanged,
logged by the qt variant but silently skipped by the gui variant; and
contents `json.load` does parse, of any shape, are assigned to the store
silently with no log. -/
theorem load_failure_nonfatal :
    (∀ (α : Type) (store : α) (r : Option α),
      gui_load_stats_file false r store = (store, false)) ∧
    (∀ (α : Type) (store : α),
      gui_load_stats_file true (none : Option α) store = (store, true)) ∧
    (∀ (α : Type) (store : α) (r : Option α),
      qt_load_stats_file false r store = (store, true)) ∧
    (∀ (α : Type) (store : α),
      qt_load_stats_file true (none : Option α) store = (store, true)) ∧
    (∀ (α : Type) (store : α) (v : α),
      gui_load_stats_file true (some v) store = (v, false) ∧
      qt_load_stats_file true (some v) store = (v, false)) :=
  ⟨fun _ _ _ => rfl, fun _ _ => rfl, fun _ _ _ => rfl, fun _ _ => rfl,
   fun _ _ _ => ⟨rfl, rfl⟩⟩

theorem sentCount_update (stats : StatsMap) (channel : String) :
    sentCount (update_channel_stats stats channel "sent") channel =
      sentCount stats channel + 1 := by
  induction stats with
  | nil =>
    simp [update_channel_stats, sentCount, bumpStat, lookupStat]
  | cons e stats ih =>
    obtain ⟨k, v⟩ := e
    by_cases hk : k = channel
    · subst hk
      simp [update_channel_stats, sentCount, bumpStat, lookupStat]
    · simp only [update_channel_stats, if_neg hk, sentCount, lookupStat]
      exact ih

theorem receivedCount_update_sent (stats : StatsMap) (channel : String) :
    ∀ c, lookupStat (update_channel_stats stats channel "sent") c =
      if c = channel then
        some (bumpStat ((lookupStat stats channel).getD ⟨0, 0⟩) "sent")
      else lookupStat stats c := by
  induction stats with
  | nil =>
    intro c
    by_cases hc : c = channel
    · subst hc
      simp [update_channel_stats, lookupStat]
    · simp [update_channel_stats, lookupStat, hc, Ne.symm hc]
  | cons e stats ih =>
    intro c
    obtain ⟨k, v⟩ := e
    by_cases hk : k = channel
    · subst hk
      by_cases hc : c = k
      · subst hc
        simp [update_channel_stats, lookupStat]
      · simp [update_channel_stats, lookupStat, hc, Ne.symm hc]
    · simp only [update_channel_stats, if_neg hk, lookupStat]
      by_cases hc : c = k
      · subst hc
        rw [if_pos rfl, if_neg hk, if_pos rfl]
      · rw [if_neg fun h => hc h.symm, ih c]
        by_cases hcc : c = channel
        · rw [if_pos hcc, if_pos hcc]
        · rw [if_neg hcc, if_neg hcc, if_neg fun h => hc h.symm]

/-- C9: a broadcast job whose publish raises increments only
`failed_sends`: `total_sent`, the whole channel-stats mapping (hence the
per-topic `sent` counter) and everything else are unchanged except for the
error line; and a job whose publish succeeds increments the topic's `sent`
counter and `total_sent` exactly, leaving `failed_sends` unchanged. -/
theorem worker_failure_isolation (w : WorkerCtx) (channel : String) :
    (∀ e : String,
      (worker_process_job (.error e) w channel).bstats.total_sent = w.bstats.total_sent ∧
      (worker_process_job (.error e) w channel).channel_stats = w.channel_stats ∧
      (worker_process_job (.error e) w channel).bstats.failed_sends = w.bstats.failed_sends + 1) ∧
    (sentCount (worker_process_job (.ok ()) w channel).channel_stats channel =
        sentCount w.channel_stats channel + 1 ∧
      (worker_process_job (.ok ()) w channel).bstats.total_sent = w.bstats.total_sent + 1 ∧
      (worker_process_job (.ok ()) w channel).bstats.failed_sends = w.bstats.failed_sends) := by
  refine ⟨fun e => ⟨rfl, rfl, rfl⟩, ?_, rfl, rfl⟩
  simpa [worker_process_job] using sentCount_update w.channel_stats channel

theorem foldl_put (targets : List String) : ∀ q : List String,
    targets.foldl (fun q channel => q ++ [channel]) q = q ++ targets := by
  induction targets with
  | nil => intro q; simp
  | cons t ts ih =>
    intro q
    simp only [List.foldl_cons, ih, List.append_assoc, List.cons_append, List.nil_append]

theorem perform_broadcast_queue_eq (count : Nat) (targets : List String) :
    perform_broadcast_queue count targets = (List.replicate count targets).flatten := by
  unfold perform_broadcast_queue
  induction count with
  | zero => simp
  | succ n ih =>
    rw [List.range_succ, List.foldl_append]
    simp only [List.foldl_cons, List.foldl_nil, foldl_put] at ih ⊢
    rw [ih, List.replicate_succ']
    simp

/-- The job queue built by `_perform_broadcast` holds exactly
`count * len(targets)` jobs. -/
theorem perform_broadcast_queue_length (count : Nat) (targets : List String) :
    (perform_broadcast_queue count targets).length = count * targets.length := by
  rw [perform_broadcast_queue_eq]
  simp [List.length_flatten, Nat.mul_comm]

theorem dstep_completions_invariant (pub : String → Except String Unit) (s : DispatchState)
    (a : DAction) (h1 : s.monitorActive = true → s.completions = [])
    (h2 : s.completions.length ≤ 1) :
    ((dstep pub s a).monitorActive = true → (dstep pub s a).completions = []) ∧
    (dstep pub s a).completions.length ≤ 1 := by
  cases a with
  | dequeue i =>
    simp only [dstep]
    cases hw : s.workers.get? i with
    | none => exact ⟨h1, h2⟩
    | some st =>
      cases st with
      | idle => cases hq : s.queue <;> exact ⟨h1, h2⟩
      | holding j => exact ⟨h1, h2⟩
      | exited => exact ⟨h1, h2⟩
  | process i =>
    simp only [dstep]
    cases hw : s.workers.get? i with
    | none => exact ⟨h1, h2⟩
    | some st =>
      cases st with
      | idle => exact ⟨h1, h2⟩
      | holding j => exact ⟨h1, h2⟩
      | exited => exact ⟨h1, h2⟩
  | monitorCheck =>
    simp only [dstep]
    by_cases hm : s.monitorActive = true
    · rw [if_pos hm]
      by_cases hq : s.queue.isEmpty
      · rw [if_pos hq]
        constructor
        · intro hact
          exact absurd hact (by simp)
        · simp [h1 hm]
      · rw [if_neg hq]
        exact ⟨h1, h2⟩
    · rw [if_neg hm]
      exact ⟨h1, h2⟩

/-- The completion poll fires at most once: once `_finalize_broadcast` has
run, `_check_broadcast_complete` is no longer rescheduled. -/
theorem dispatch_completions_once (pub : String → Except String Unit) :
    ∀ (acts : List DAction) (s : DispatchState),
    (s.monitorActive = true → s.completions = []) → s.completions.length ≤ 1 →
    (dispatchRun pub s acts).completions.length ≤ 1 := by
  intro acts
  induction acts with
  | nil => intro s _ h2; exact h2
  | cons a acts ih =>
    intro s h1 h2
    obtain ⟨g1, g2⟩ := dstep_completions_invariant pub s a h1 h2
    exact ih (dstep pub s a) g1 g2

/-- C1 (code bug): with `count=3`, `targets=["a","b"]`, `workers=1` the
dispatcher builds exactly the 6 jobs `a,b,a,b,a,b` (each target once per
round), but because `_check_broadcast_complete` tests only
`self._broadcast_queue.empty()` — not that the workers have exited — the
schedule `lateDequeueSchedule` makes the completion callback fire with
`total_sent + failed_sends = 5 ≠ 6` while the sixth job is still in
flight, even though every publish succeeds. -/
theorem broadcast_completion_fires_early :
    perform_broadcast_queue 3 ["a", "b"] = ["a", "b", "a", "b", "a", "b"] ∧
    (perform_broadcast_queue 3 ["a", "b"]).length = 3 * 2 ∧
    (dispatchRun (fun _ => Except.ok ()) (initDispatch 3 ["a", "b"] 1)
        lateDequeueSchedule).completions = [(5, 0)] ∧
    5 + 0 ≠ 3 * 2 := by
  refine ⟨by decide, by decide, ?_, by decide⟩
  decide

end OMB.Gui

namespace OMB.Modules

theorem inv_step (s : ConnState) (e : Event) (hInv : Inv s) : Inv (step s e) := by
  obtain ⟨h1, h2⟩ := hInv
  cases e with
  | onConnect rc =>
    simp only [step, onConnectStep]
    by_cases hf : s.timerField = true <;>
      by_cases hto : s.timeoutOccurred = true <;>
        by_cases hrc : rc = 0 <;>
          simp_all [Inv]
  | timerFire =>
    simp only [step, timerFireStep, disconnectStep]
    by_cases hl : s.timerLive = true <;>
      by_cases hto : s.timeoutOccurred = true <;>
        by_cases hc : s.is_connected = true <;>
          by_cases hcl : s.client = true <;>
            simp_all [Inv]
  | onDisconnect rc =>
    simp only [step, onDisconnectStep]
    by_cases hf : s.timerField = true <;> simp_all [Inv]
  | userDisconnect =>
    simp only [step, disconnectStep]
    by_cases hcl : s.client = true <;> simp_all [Inv]

theorem step_bound (s : ConnState) (e : Event) (hInv : Inv s) (n : Nat)
    (hn : n + eCount e ≤ 1) :
    (step s e).cbCalls.length + cbBound n (step s e) ≤
      s.cbCalls.length + cbBound (n + eCount e) s := by
  obtain ⟨h1, h2⟩ := hInv
  cases e with
  | onConnect rc =>
    have hn0 : n = 0 := by simp only [eCount] at hn; omega
    subst hn0
    simp only [step, onConnectStep, eCount]
    by_cases hf : s.timerField = true <;>
      by_cases hto : s.timeoutOccurred = true <;>
        by_cases hrc : rc = 0 <;>
          simp_all [cbBound, timerBit]
  | timerFire =>
    simp only [step, timerFireStep, disconnectStep, eCount]
    by_cases hl : s.timerLive = true <;>
      by_cases hto : s.timeoutOccurred = true <;>
        by_cases hc : s.is_connected = true <;>
          by_cases hcl : s.client = true <;>
            simp_all [cbBound, timerBit]
  | onDisconnect rc =>
    simp only [step, onDisconnectStep, eCount]
    by_cases hf : s.timerField = true <;>
      by_cases hto : s.timeoutOccurred = true <;>
        by_cases hc : s.is_connected = true <;>
          simp_all [cbBound, timerBit]
  | userDisconnect =>
    simp only [step, disconnectStep, eCount]
    by_cases hcl : s.client = true <;>
      by_cases hto : s.timeoutOccurred = true <;>
        by_cases hc : s.is_connected = true <;>
          simp_all [cbBound, timerBit]

theorem run_bound : ∀ (evs : List Event) (s : ConnState), Inv s → onConnectCount evs ≤ 1 →
    (runEvents s evs).cbCalls.length ≤ s.cbCalls.length + cbBound (onConnectCount evs) s := by
  intro evs
  induction evs with
  | nil =>
    intro s _ _
    simp [runEvents]
  | cons e evs ih =>
    intro s hInv hcount
    have hsplit : onConnectCount (e :: evs) = onConnectCount evs + eCount e := by
      cases e <;> simp [onConnectCount, eCount, List.countP_cons]
    have hcount' : onConnectCount evs ≤ 1 := by
      rw [hsplit] at hcount
      omega
    have hb := step_bound s e ⟨hInv.1, hInv.2⟩ (onConnectCount evs) (by rw [← hsplit]; exact hcount)
    have hrun := ih (step s e) (inv_step s e hInv) hcount'
    calc (runEvents s (e :: evs)).cbCalls.length
        = (runEvents (step s e) evs).cbCalls.length := rfl
      _ ≤ (step s e).cbCalls.length + cbBound (onConnectCount evs) (step s e) := hrun
      _ ≤ s.cbCalls.length + cbBound (onConnectCount evs + eCount e) s := hb
      _ = s.cbCalls.length + cbBound (onConnectCount (e :: evs)) s := by rw [hsplit]

/-- C2: over every sequence of events of one connect attempt (at most one
`on_connect` delivery), the connection callback is invoked at most once in
total — success, failure or timeout, never two of them; in particular the
run "watchdog fires, then a late `on_connect(0)` arrives" produces exactly
the one timeout-failure invocation and nothing more. -/
theorem connection_callback_at_most_once :
    (∀ evs : List Event, onConnectCount evs ≤ 1 →
      (runEvents initAttempt evs).cbCalls.length ≤ 1) ∧
    (runEvents initAttempt [.timerFire, .onConnect 0]).cbCalls =
      [(false, some "Connection timeout reached")] := by
  constructor
  · intro evs h
    have hrun := run_bound evs initAttempt
      (by constructor <;> simp [initAttempt]) h
    have hb : cbBound (onConnectCount evs) initAttempt = 1 := by
      have h1 : timerBit initAttempt = 1 := by decide
      rw [cbBound, if_neg (by decide), h1]
      exact Nat.min_eq_left (by omega)
    rw [hb] at hrun
    have h0 : initAttempt.cbCalls.length = 0 := rfl
    omega
  · decide

/-- Witness for C2 at the concrete run "timeout fires, late success
`on_connect` arrives". -/
theorem connection_callback_at_most_once_witness :
    onConnectCount [Event.timerFire, Event.onConnect 0] ≤ 1 ∧
    (runEvents initAttempt [Event.timerFire, Event.onConnect 0]).cbCalls.length ≤ 1 :=
  ⟨by decide,
   connection_callback_at_most_once.1 [Event.timerFire, Event.onConnect 0] (by decide)⟩

theorem step_timeout_sticky (s : ConnState) (e : Event) (hto : s.timeoutOccurred = true)
    (hc : s.is_connected = false) :
    (step s e).timeoutOccurred = true ∧ (step s e).is_connected = false := by
  cases e with
  | onConnect rc =>
    simp only [step, onConnectStep]
    by_cases hf : s.timerField = true <;> by_cases hrc : rc = 0 <;> simp_all
  | timerFire =>
    simp only [step, timerFireStep, disconnectStep]
    by_cases hl : s.timerLive = true <;> simp_all
  | onDisconnect rc =>
    simp only [step, onDisconnectStep]
    by_cases hf : s.timerField = true <;> simp_all
  | userDisconnect =>
    simp only [step, disconnectStep]
    by_cases hcl : s.client = true <;> simp_all

theorem timeout_sticky : ∀ (evs : List Event) (s : ConnState), s.timeoutOccurred = true →
    s.is_connected = false →
    (runEvents s evs).timeoutOccurred = true ∧ (runEvents s evs).is_connected = false := by
  intro evs
  induction evs with
  | nil =>
    intro s h1 h2
    exact ⟨h1, h2⟩
  | cons e evs ih =>
    intro s h1 h2
    obtain ⟨g1, g2⟩ := step_timeout_sticky s e h1 h2
    exact ih (step s e) g1 g2

/-- C10: once the watchdog has fired for the attempt, the timeout flag is
set, the client handle has been torn down, and the attempt never reaches
the Connected state — in particular a late `on_connect`, even with reason
code 0, returns early without changing `is_connected` or invoking the
callback, and the same holds after any further events. -/
theorem timeout_blocks_late_connect :
    (step initAttempt .timerFire).client = false ∧
    (step initAttempt .timerFire).is_connected = false ∧
    (step initAttempt .timerFire).timeoutOccurred = true ∧
    (∀ rc : Nat,
      (step (step initAttempt .timerFire) (.onConnect rc)).is_connected = false ∧
      (step (step initAttempt .timerFire) (.onConnect rc)).cbCalls =
        (step initAttempt .timerFire).cbCalls) ∧
    (∀ evs : List Event, (runEvents (step initAttempt .timerFire) evs).is_connected = false) := by
  refine ⟨by decide, by decide, by decide, ?_, ?_⟩
  · intro rc
    constructor <;>
      simp [step, onConnectStep, initAttempt, timerFireStep, disconnectStep]
  · intro evs
    exact (timeout_sticky evs (step initAttempt .timerFire) (by decide) (by decide)).2

end OMB.Modules

namespace OMB.Typed

/-- C3: publishing while not connected raises
`RuntimeError("Not connected to broker")` (the spec's `NotConnectedError`)
synchronously, leaves the handler untouched, and performs no call on the
underlying client. -/
theorem publish_not_connected_raises (s : HandlerState) (topic payload : String)
    (qos : Option Nat) (retain : Option Bool) (h : s.is_connected = false) :
    publish s topic payload qos retain =
      (s, .error (.runtimeErr "Not connected to broker")) ∧
    (publish s topic payload qos retain).1.clientCalls = s.clientCalls := by
  have hcond : ¬ (s.is_connected = true) := by
    rw [h]
    simp
  unfold publish
  rw [if_neg hcond]
  exact ⟨rfl, rfl⟩

/-- Witness for C3 on a fresh handler. -/
theorem publish_not_connected_witness :
    initState.is_connected = false ∧
    publish initState "t/x" "hello" none none =
      (initState, .error (.runtimeErr "Not connected to broker")) :=
  ⟨rfl, (publish_not_connected_raises initState "t/x" "hello" none none rfl).1⟩

theorem error_string_ne_empty (rc : Nat) : error_string rc ≠ "" := by
  intro h
  have hlen := congrArg String.length h
  simp [error_string, String.length_append] at hlen
  exact absurd hlen.1 (by decide)

/-- C4: an `on_connect` event whose extracted reason code is 0 sets
`is_connected`, resubscribes every registry entry followed by the config's
primary topic, and invokes the connection callback exactly once with
success; a nonzero reason code leaves `is_connected` false, performs no
client call, and invokes the callback exactly once with failure and the
nonempty human-readable `error_string`. -/
theorem on_connect_success_failure (s : HandlerState) (c : MQTTConfig) (f : Nat)
    (rp : Option Nat) (hc : s.config = some c) (ht : c.topic ≠ "")
    (hnc : s.is_connected = false) :
    (reason_code_of c.mqtt_version f rp = 0 →
      (on_connect s f rp).1.is_connected = true ∧
      (on_connect s f rp).1.clientCalls = s.clientCalls ++
        ((s.wildcard_subscriptions.map fun p => ClientCall.subscribeCall p.1 p.2) ++
          [ClientCall.subscribeCall c.topic c.qos]) ∧
      (on_connect s f rp).1.cbCalls = s.cbCalls ++ [(true, "")] ∧
      (on_connect s f rp).2 = Except.ok ()) ∧
    (reason_code_of c.mqtt_version f rp ≠ 0 →
      (on_connect s f rp).1.is_connected = false ∧
      (on_connect s f rp).1.clientCalls = s.clientCalls ∧
      (on_connect s f rp).1.cbCalls =
        s.cbCalls ++ [(false, error_string (reason_code_of c.mqtt_version f rp))] ∧
      error_string (reason_code_of c.mqtt_version f rp) ≠ "" ∧
      (on_connect s f rp).2 = Except.ok ()) := by
  unfold on_connect
  rw [hc]
  dsimp only
  constructor
  · intro h0
    rw [if_pos h0]
    refine ⟨rfl, ?_, rfl, rfl⟩
    simp [ht]
  · intro hne
    rw [if_neg hne]
    exact ⟨hnc, rfl, rfl, error_string_ne_empty _, rfl⟩

/-- Witness for C4: the concrete handler `witnessState` (primary topic
`"t/#"`, one registry entry) receiving a v5 success `on_connect`. -/
theorem on_connect_success_failure_witness :
    witnessState.config = some witnessConfig ∧ witnessConfig.topic ≠ "" ∧
    witnessState.is_connected = false ∧
    (reason_code_of witnessConfig.mqtt_version 0 none = 0 →
      (on_connect witnessState 0 none).1.is_connected = true ∧
      (on_connect witnessState 0 none).1.clientCalls = witnessState.clientCalls ++
        ((witnessState.wildcard_subscriptions.map fun p => ClientCall.subscribeCall p.1 p.2) ++
          [ClientCall.subscribeCall witnessConfig.topic witnessConfig.qos]) ∧
      (on_connect witnessState 0 none).1.cbCalls = witnessState.cbCalls ++ [(true, "")] ∧
      (on_connect witnessState 0 none).2 = Except.ok ()) :=
  ⟨rfl, by decide, rfl,
   (on_connect_success_failure witnessState witnessConfig 0 none rfl (by decide) rfl).1⟩

/-- C5 counterexample: `connect` with a config whose host is empty (and
everything else valid) neither raises any synchronous error nor skips the
dial: it returns normally and the dial
`client.connect("", 1883, keepalive=60)` appears in the client-call log,
refuting "raises ConfigError synchronously ... without dialing the
broker". -/
theorem connect_empty_host_dials_counterexample :
    (connect initState
      (some { host := "", port := 1883, protocol := "tcp", topic := "#" }) none).2 =
        Except.ok () ∧
    ClientCall.connectCall "" 1883 60 ∈
      (connect initState
        (some { host := "", port := 1883, protocol := "tcp", topic := "#" }) none).1.clientCalls := by
  constructor
  · rfl
  · decide

/-- C5 amended: the only synchronous fail-fast in `connect` is the absent
configuration, rejected with `ValueError` before any callback or client
call; a config is otherwise not validated — `connect` proceeds to dial,
and a dial failure is reported through the connection callback and then
re-raised. -/
theorem connect_no_config_fails_fast (s : HandlerState) (d : Option String)
    (h : s.config = none) :
    connect s none d = (s, .error (.valueErr "No configuration provided")) ∧
    (∀ (c : MQTTConfig) (msg : String),
      (connect s (some c) (some msg)).1.cbCalls = s.cbCalls ++ [(false, msg)] ∧
      (connect s (some c) (some msg)).2 = .error (.externalErr msg)) := by
  constructor
  · unfold connect
    rw [h]
  · intro c msg
    unfold connect connectDial
    by_cases hp : c.protocol = "ws" <;> simp [configure, hp]

/-- Witness for C5 (amended) on a fresh handler. -/
theorem connect_no_config_fails_fast_witness :
    initState.config = none ∧
    connect initState none none = (initState, .error (.valueErr "No configuration provided")) :=
  ⟨rfl, (connect_no_config_fails_fast initState none rfl).1⟩

/-- C6 counterexample: in `src/mqtt_handler.py` a fresh handler has no
client handle, and `disconnect` then raises (`self.client.disconnect()` on
`None` is an `AttributeError`, logged and re-raised by the `except`
block), refuting "calling disconnect when no client handle exists is a
no-op that never raises". -/
theorem disconnect_no_client_raises_counterexample :
    disconnect initState =
      (initState, .error (.attributeErr "NoneType object has no attribute disconnect")) :=
  rfl

end OMB.Typed

namespace OMB.Utils

/-- C6 amended: the `_cleanup_connection`-based disconnect of
`src/utils/mqtt_handler.py` (like the guarded disconnect of
`src/modules/mqtt_connection.py`) is idempotent and total — a second call
is a no-op, it never raises (it is a total function into `UState`), it
never invokes the disconnection callback, and with no client handle it
changes nothing; the `src/mqtt_handler.py` variant instead raises
`AttributeError` when no client handle exists. -/
theorem cleanup_disconnect_idempotent (s : UState) :
    disconnect (disconnect s) = disconnect s ∧
    (disconnect s).disconnCalls = s.disconnCalls ∧
    (s.client = false → disconnect s = s) := by
  refine ⟨?_, ?_, ?_⟩ <;>
    by_cases hcl : s.client = true <;>
      simp [disconnect, cleanup_connection, hcl]

/-- Witness for C6 (amended): double disconnect on the client-less
handler state `clientlessState`. -/
theorem cleanup_disconnect_idempotent_witness :
    clientlessState.client = false ∧
    disconnect clientlessState = clientlessState ∧
    disconnect (disconnect clientlessState) = disconnect clientlessState :=
  ⟨rfl, (cleanup_disconnect_idempotent clientlessState).2.2 rfl,
   (cleanup_disconnect_idempotent clientlessState).1⟩

end OMB.Utils
